import Mathlib

/-!
Shallow embedding of the `otelzap` log-to-span correlation and emission
pipeline from SpechtLabs/go-otel-utils, together with theorems settling the
frozen claims about it.

Severity levels are `zapcore.Level` values, an ordered enumeration realised in
Go as an integer type with Debug = -1, Info = 0, Warn = 1, Error = 2,
DPanic = 3, Panic = 4, Fatal = 5; we embed them as `Int` with those constants.
Go slices become Lean lists; the in-place mutation of `*Logger` receivers
becomes explicit state passing (and, for the aliasing claim, an explicit heap
of logger cells); the runtime stack inspection done by `runtimeCaller` and
`runtime.Stack` is parameterised by a `RuntimeEnv` value holding the frame
that the runtime would resolve and the stack dump it would produce.
-/

namespace Otelzap

abbrev Level := Int

def debugLevel : Level := -1

def infoLevel : Level := 0

def warnLevel : Level := 1

def errorLevel : Level := 2

def dpanicLevel : Level := 3

def panicLevel : Level := 4

def fatalLevel : Level := 5

/-- A Go error value as seen by `Logger.WithError`: every error either wraps a
cause (`errors.Unwrap` returns it) or does not, and either implements
`humane.Error` (carrying an advice list) or does not.  `base h msg adv` is an
unwrappable error, `wrap h msg adv cause` an error whose `Unwrap` yields
`cause`; `h` records whether the link itself is a `humane.Error` and `adv` its
advice list (ignored when `h = false`). -/
inductive GoError where
  | base (isHumane : Bool) (msg : String) (advice : List String)
  | wrap (isHumane : Bool) (msg : String) (advice : List String) (cause : GoError)
deriving Repr, DecidableEq

/-- `errors.Unwrap`: the wrapped cause, if any. -/
def GoError.unwrap : GoError → Option GoError
  | .base _ _ _ => none
  | .wrap _ _ _ c => some c

/-- `errors.As(err, &herr)` for target type `humane.Error`: succeeds iff some
link of `err`'s unwrap chain is a humane error, in which case `herr` is the
outermost such link; we return that link's advice list (`herr.Advice()`). -/
def GoError.asHumaneAdvice : GoError → Option (List String)
  | .base true _ adv => some adv
  | .base false _ _ => none
  | .wrap true _ adv _ => some adv
  | .wrap false _ _ c => c.asHumaneAdvice

/-- The collection loop of `Logger.WithError` (logger.go): starting from the
given error and repeatedly unwrapping, for each chain position where
`errors.As` finds a humane error, record the current error as a cause and
append the found advice; returns (causes, advice) in loop order. -/
def GoError.collect : GoError → List GoError × List String
  | .base h m adv =>
    match GoError.asHumaneAdvice (.base h m adv) with
    | some a => ([.base h m adv], a)
    | none => ([], [])
  | .wrap h m adv c =>
    let rest := c.collect
    match GoError.asHumaneAdvice (.wrap h m adv c) with
    | some a => (GoError.wrap h m adv c :: rest.1, a ++ rest.2)
    | none => rest

/-- The typed value of a `zap.Field`. `anyV` stands for a value of a type the
embedding does not further distinguish (the payload of `zap.Any` on a
non-string argument, etc.). -/
inductive FieldValue where
  | strV (s : String)
  | intV (n : Int)
  | errV (e : GoError)
  | strListV (l : List String)
  | errListV (l : List GoError)
  | anyV (tag : Nat)
deriving Repr, DecidableEq

/-- A `zap.Field` / `zapcore.Field`: a key with a typed value. -/
structure Field where
  key : String
  value : FieldValue
deriving Repr, DecidableEq

/-- `zap.Error(err)`: zap names this field "error". -/
def zapError (e : GoError) : Field := ⟨"error", .errV e⟩

/-- `zap.Strings(key, ss)`. -/
def zapStrings (k : String) (ss : List String) : Field := ⟨k, .strListV ss⟩

/-- `zap.Errors(key, errs)`. -/
def zapErrors (k : String) (es : List GoError) : Field := ⟨k, .errListV es⟩

/-- The field list built by `Logger.WithError` (logger.go): always
`zap.Error(err)` first, then `error_advice` if any advice was collected, then
`error_causes` holding all collected causes but the first if more than one
cause was found. -/
def withErrorFields (err : GoError) : List Field :=
  let zapFields := [zapError err]
  let collected := err.collect
  let zapFields :=
    if collected.2.length > 0 then zapFields ++ [zapStrings "error_advice" collected.2]
    else zapFields
  if collected.1.length > 1 then zapFields ++ [zapErrors "error_causes" (collected.1.drop 1)]
  else zapFields

/-- The `Logger` struct of otelzap/logger.go.  The embedded zap handles, the
provider and the otel logger are opaque resources; we keep them as numeric
handles so that the frame conditions of the claims can mention them. -/
structure Logger where
  zapHandle : Nat
  skipCallerHandle : Nat
  otelLoggerHandle : Nat
  minLevel : Level
  errorStatusLevel : Level
  minAnnotateLevel : Level
  caller : Bool
  stackTrace : Bool
  extraFields : List Field
  extraFieldsOnce : List Field
  callerDepth : Int
deriving Repr, DecidableEq

/-- `New(logger, opts...)` (logger.go): defaults minLevel = Info,
errorStatusLevel = Error, minAnnotateLevel = Warn, caller = true,
callerDepth = 0, then applies the options in order; the otel logger handle is
then derived from the zap logger's name.  `zapHandle` stands for the base zap
logger, `zapHandle + 1` for its caller-skip derivative. -/
def Logger.new (zapHandle : Nat) (opts : List (Logger → Logger)) : Logger :=
  let l : Logger :=
    { zapHandle := zapHandle
      skipCallerHandle := zapHandle + 1
      otelLoggerHandle := 0
      minLevel := infoLevel
      errorStatusLevel := errorLevel
      minAnnotateLevel := warnLevel
      caller := true
      stackTrace := false
      extraFields := []
      extraFieldsOnce := []
      callerDepth := 0 }
  let l := opts.foldl (fun l o => o l) l
  { l with otelLoggerHandle := l.zapHandle }

/-- Modelled from the spec and the repository examples: option
`otelzap.WithMinLevel` sets the emit-minimum threshold (the options source
file is not included under src/; the examples configure exactly these five
options). -/
def WithMinLevel (lvl : Level) : Logger → Logger :=
  fun l => { l with minLevel := lvl }

/-- Modelled from the spec and the repository examples: option
`otelzap.WithAnnotateLevel` sets the annotate-minimum threshold. -/
def WithAnnotateLevel (lvl : Level) : Logger → Logger :=
  fun l => { l with minAnnotateLevel := lvl }

/-- Modelled from the spec and the repository examples: option
`otelzap.WithErrorStatusLevel` sets the error-status-minimum threshold. -/
def WithErrorStatusLevel (lvl : Level) : Logger → Logger :=
  fun l => { l with errorStatusLevel := lvl }

/-- Modelled from the spec and the repository examples: option
`otelzap.WithCaller` toggles caller capture. -/
def WithCaller (b : Bool) : Logger → Logger :=
  fun l => { l with caller := b }

/-- Modelled from the spec and the repository examples: option
`otelzap.WithStackTrace` toggles stack-trace capture. -/
def WithStackTrace (b : Bool) : Logger → Logger :=
  fun l => { l with stackTrace := b }

/-- `Logger.logFields(fields)` (logger.go:493-504): appends the sticky
`extraFields` (when non-empty) and then the one-shot `extraFieldsOnce` (when
non-empty) after the call-site fields, clearing the one-shot list; the Go
method mutates the receiver, so we return the merged list together with the
updated logger. -/
def Logger.logFields (l : Logger) (fields : List Field) : List Field × Logger :=
  let fields := if l.extraFields.length > 0 then fields ++ l.extraFields else fields
  if l.extraFieldsOnce.length > 0 then
    (fields ++ l.extraFieldsOnce, { l with extraFieldsOnce := [] })
  else
    (fields, l)

/-- `Logger.With(fields...)` (logger.go:344-347): appends to the one-shot
list of the receiver and returns the receiver itself (pure view; the aliasing
behaviour is captured by `heapWith` below). -/
def Logger.With (l : Logger) (fields : List Field) : Logger :=
  { l with extraFieldsOnce := l.extraFieldsOnce ++ fields }

/-- `Logger.WithError(err)` (logger.go:317-342): builds the error fields and
hands them to `With`. -/
def Logger.WithError (l : Logger) (err : GoError) : Logger :=
  l.With (withErrorFields err)

/-- An otel `log.KeyValue` attribute. -/
structure KeyValue where
  key : String
  value : FieldValue
deriving Repr, DecidableEq

/-- Modelled from the spec: `convertFields` (source file not under src/)
turns each zap field into a telemetry key-value, key preserved and value
converted per field; what the claims use is that it is a per-element,
order-preserving map. -/
def convertField (f : Field) : KeyValue := ⟨f.key, f.value⟩

/-- Per-field conversion of a merged field list, in order. -/
def convertFields (fields : List Field) : List KeyValue :=
  fields.map convertField

/-- Modelled from the spec: `Attribute(key, value)` (source file not under
src/) converts a telemetry key-value into a span attribute, key preserved,
value converted to the nearest supported attribute type. -/
def Attribute (k : String) (v : FieldValue) : KeyValue := ⟨k, v⟩

/-- Modelled from the spec: `convertLevel` (source file not under src/) maps
a zap level to the external telemetry severity representation; an
order-preserving affine map stands in for the concrete table (no claim
inspects the numeric severities). -/
def convertLevel (lvl : Level) : Int := 4 * (lvl + 2) + 1

/-- The observable state of the active trace span: whether it is recording,
its attributes, its status description when `SetStatus(codes.Error, msg)` has
been called, and the error texts recorded by `RecordError`. -/
structure Span where
  recording : Bool
  attributes : List KeyValue
  status : Option String
  events : List String
deriving Repr, DecidableEq

/-- A context either carries a span or does not (`trace.SpanFromContext`
yields a non-recording no-op span in the latter case). -/
abbrev Ctx := Option Span

/-- The caller frame that `runtimeCaller(4 + callerDepth)` would resolve. -/
structure Frame where
  fn : String
  file : String
  line : Int
deriving Repr, DecidableEq

/-- The ambient runtime facts a single log call observes: the resolved caller
frame (`none` when `runtimeCaller` reports not-ok) and the `runtime.Stack`
dump. -/
structure RuntimeEnv where
  callerFrame : Option Frame
  stackDump : String
deriving Repr, DecidableEq

/-- A record handed to `otelLogger.Emit`: body, converted severity, and the
attribute list passed to `AddAttributes`. -/
structure Record where
  body : String
  severity : Int
  attrs : List KeyValue
deriving Repr, DecidableEq

/-- The span-interaction half of `LoggerWithCtx.log` / `Logger.log`: when the
level reaches the annotate or error-status threshold and the context's span
is recording, append every converted key-value as a span attribute (annotate
gate) and set the error status and record an error event (error-status gate);
otherwise leave the span untouched. -/
def Logger.spanCorrelate (l : Logger) (ctx : Ctx) (lvl : Level) (msg : String)
    (kvs : List KeyValue) : Ctx :=
  if lvl ≥ l.minAnnotateLevel ∨ lvl ≥ l.errorStatusLevel then
    match ctx with
    | some span =>
      if span.recording then
        let span :=
          if lvl ≥ l.minAnnotateLevel then
            { span with
              attributes := span.attributes ++ kvs.map (fun kv => Attribute kv.key kv.value) }
          else span
        let span :=
          if lvl ≥ l.errorStatusLevel then
            { span with status := some msg, events := span.events ++ [msg] }
          else span
        some span
      else some span
    | none => none
  else ctx

/-- The record-enrichment half of `LoggerWithCtx.log` / `Logger.log`: when
caller capture is on and the runtime resolved a frame, append
`code.function` (if the function name is non-empty) and `code.filepath` plus
`code.lineno` (if the file is non-empty); when stack-trace capture is on,
append `exception.stacktrace`. -/
def Logger.enrichKvs (l : Logger) (env : RuntimeEnv) (kvs : List KeyValue) : List KeyValue :=
  let kvs :=
    if l.caller then
      match env.callerFrame with
      | some fr =>
        let kvs := if fr.fn ≠ "" then kvs ++ [⟨"code.function", .strV fr.fn⟩] else kvs
        if fr.file ≠ "" then
          kvs ++ [⟨"code.filepath", .strV fr.file⟩, ⟨"code.lineno", .intV fr.line⟩]
        else kvs
      | none => kvs
    else kvs
  if l.stackTrace then kvs ++ [⟨"exception.stacktrace", .strV env.stackDump⟩] else kvs

/-- `LoggerWithCtx.log` (part_002:131-176): correlate with the span, then
build the record (body = msg, severity = converted level, attributes = the
key-values plus enrichments) and emit it. -/
def Logger.log (l : Logger) (env : RuntimeEnv) (ctx : Ctx) (lvl : Level) (msg : String)
    (kvs : List KeyValue) : Ctx × Record :=
  (l.spanCorrelate ctx lvl msg kvs,
   { body := msg, severity := convertLevel lvl, attrs := l.enrichKvs env kvs })

/-- One local write through the embedded zap logger. -/
structure LocalEntry where
  level : Level
  msg : String
  fields : List Field
deriving Repr, DecidableEq

/-- Everything one logging call changes or produces: the logger state after
the call, the context's span state after the call, the telemetry records
emitted, and the local zap writes performed. -/
structure CallResult where
  logger : Logger
  ctx : Ctx
  emitted : List Record
  localOut : List LocalEntry
deriving Repr, DecidableEq

/-- `LoggerWithCtx.logFields` (part_002:119-129): merge via
`Logger.logFields`, then run the telemetry path only when the level reaches
the emit minimum; returns the merged fields for the local write. -/
def LoggerWithCtx.logFields (l : Logger) (env : RuntimeEnv) (ctx : Ctx) (lvl : Level)
    (msg : String) (fields : List Field) : List Field × Logger × Ctx × List Record :=
  let merged := l.logFields fields
  if lvl ≥ l.minLevel then
    let out := l.log env ctx lvl msg (convertFields merged.1)
    (merged.1, merged.2, out.1, [out.2])
  else
    (merged.1, merged.2, ctx, [])

/-- A leveled call on a context-bound view, `LoggerWithCtx.Debug` through
`LoggerWithCtx.Fatal` (part_002:63-117), with the level as a parameter: run
`LoggerWithCtx.logFields`, then always write the merged fields locally
through the caller-skip zap handle. -/
def LoggerWithCtx.leveled (l : Logger) (env : RuntimeEnv) (ctx : Ctx) (lvl : Level)
    (msg : String) (fields : List Field) : CallResult :=
  let out := LoggerWithCtx.logFields l env ctx lvl msg fields
  { logger := out.2.1
    ctx := out.2.2.1
    emitted := out.2.2.2
    localOut := [⟨lvl, msg, out.1⟩] }

/-- A leveled call on the plain logger, `Logger.Debug` through `Logger.Fatal`
(logger.go:389-443): merge (consuming one-shot fields) and write locally; no
context, no telemetry path. -/
def Logger.leveled (l : Logger) (lvl : Level) (msg : String) (fields : List Field) :
    CallResult :=
  let merged := l.logFields fields
  { logger := merged.2
    ctx := none
    emitted := []
    localOut := [⟨lvl, msg, merged.1⟩] }

/-- `Logger.DebugContext` through `Logger.FatalContext` (logger.go:450-476),
with the level as a parameter.  The body is
`l.Ctx(ctx).l.skipCaller.Error(msg, fields...)`: it constructs the
context-bound view, immediately reaches back into the logger it wraps, and
writes the call-site fields through the caller-skip zap handle — no field
merge, no one-shot consumption, no span interaction, no telemetry record. -/
def Logger.leveledContext (l : Logger) (ctx : Ctx) (lvl : Level) (msg : String)
    (fields : List Field) : CallResult :=
  { logger := l
    ctx := ctx
    emitted := []
    localOut := [⟨lvl, msg, fields⟩] }

/-- `Logger.LogContext` (logger.go:445-448): merge via `Logger.logFields`
(consuming one-shot fields), then write locally through the caller-skip
handle of the context-bound view's logger; no span interaction and no
telemetry record. -/
def Logger.logContext (l : Logger) (ctx : Ctx) (lvl : Level) (msg : String)
    (fields : List Field) : CallResult :=
  let merged := l.logFields fields
  { logger := merged.2
    ctx := ctx
    emitted := []
    localOut := [⟨lvl, msg, merged.1⟩] }

/-- One element of the loosely-typed `keysAndValues ...interface{}` argument
list of the sugared key-value calls: a `zapcore.Field`, a string, or a value
of any other type (which the switch in `logKVs` silently skips). -/
inductive KVArg where
  | fieldArg (f : Field)
  | strArg (s : String)
  | otherArg (tag : Nat)
deriving Repr, DecidableEq

/-- `zap.Any(key, v)`'s rendering of an arbitrary argument used as a value. -/
def KVArg.anyValue : KVArg → FieldValue
  | .fieldArg _ => .anyV 0
  | .strArg s => .strV s
  | .otherArg n => .anyV n

/-- The pairing loop of `SugaredLogger.logKVs` (src/README.md): walk the
argument list left to right; a `zapcore.Field` is taken as-is; a string `s`
is paired with `args[i+1]` via `zap.Any` and the index advances past both; any
other argument is skipped.  A lone trailing string makes the Go code read
`args[i+1]` with `i+1 == len(args)` — an index-out-of-range panic, which we
return as `none`. -/
def pairKVs : List KVArg → Option (List Field)
  | [] => some []
  | .fieldArg f :: rest => (pairKVs rest).map (fun kvs => f :: kvs)
  | .strArg s :: v :: rest => (pairKVs rest).map (fun kvs => Field.mk s v.anyValue :: kvs)
  | [.strArg _] => none
  | .otherArg _ :: rest => pairKVs rest

/-- `SugaredLogger.logKVs` (src/README.md): below the emit minimum it
returns before touching the arguments; otherwise it pairs the key-value list
(`none` models the out-of-range panic on a lone trailing string key) and
hands the result to `Logger.LogContext`. -/
def SugaredLogger.logKVs (l : Logger) (ctx : Ctx) (lvl : Level) (msg : String)
    (args : List KVArg) : Option CallResult :=
  if lvl < l.minLevel then
    some { logger := l, ctx := ctx, emitted := [], localOut := [] }
  else
    match pairKVs args with
    | none => none
    | some kvs => some (Logger.logContext l ctx lvl msg kvs)

/-- Go pointer semantics of `Logger.With`: the heap is a list of logger
cells, a `*Logger` is an index; `With` updates the cell in place (appending
to its one-shot list only) and returns the same index. -/
def heapWith (h : List Logger) (i : Nat) (fields : List Field) : List Logger × Nat :=
  match h.get? i with
  | some l => (h.set i (l.With fields), i)
  | none => (h, i)

/-- Go pointer semantics of `Logger.WithError`: builds the error fields and
delegates to the in-place `With`. -/
def heapWithError (h : List Logger) (i : Nat) (err : GoError) : List Logger × Nat :=
  heapWith h i (withErrorFields err)

/-! Helper lemmas about the merge and the record enrichment. -/

/-- The merged list produced by `Logger.logFields` is always call-site fields,
then sticky fields, then one-shot fields, with nothing dropped. -/
theorem Logger.logFields_fst (l : Logger) (fields : List Field) :
    (l.logFields fields).1 = fields ++ l.extraFields ++ l.extraFieldsOnce := by
  unfold Logger.logFields
  rcases hf : l.extraFields with _ | ⟨a, as⟩ <;>
    rcases ho : l.extraFieldsOnce with _ | ⟨b, bs⟩ <;> simp [hf, ho]

/-- `Logger.logFields` leaves everything but the one-shot list unchanged and
clears the one-shot list. -/
theorem Logger.logFields_snd (l : Logger) (fields : List Field) :
    (l.logFields fields).2 = { l with extraFieldsOnce := [] } := by
  cases l with
  | mk zh sh oh ml esl mal c st ef efo cd =>
    unfold Logger.logFields
    rcases efo with _ | ⟨b, bs⟩ <;> simp

/-- Record enrichment only appends after the key-values it is given. -/
theorem Logger.enrichKvs_eq_append (l : Logger) (env : RuntimeEnv) (kvs : List KeyValue) :
    l.enrichKvs env kvs = kvs ++ l.enrichKvs env [] := by
  unfold Logger.enrichKvs
  cases hc : l.caller <;> rcases hf : env.callerFrame with _ | ⟨fr⟩ <;>
    simp [hc, hf] <;> split_ifs <;> simp

/-- Full characterization of a context-bound leveled call: the one-shot list
is consumed, the merged sequence is call-site ++ sticky ++ one-shot, the local
write always happens with that sequence, and the span/telemetry path runs
exactly when the level reaches the emit minimum. -/
theorem LoggerWithCtx.leveled_unfold (l : Logger) (env : RuntimeEnv) (ctx : Ctx) (lvl : Level)
    (msg : String) (fields : List Field) :
    LoggerWithCtx.leveled l env ctx lvl msg fields =
      { logger := { l with extraFieldsOnce := [] }
        ctx :=
          if l.minLevel ≤ lvl then
            l.spanCorrelate ctx lvl msg
              (convertFields (fields ++ l.extraFields ++ l.extraFieldsOnce))
          else ctx
        emitted :=
          if l.minLevel ≤ lvl then
            [⟨msg, convertLevel lvl,
              l.enrichKvs env (convertFields (fields ++ l.extraFields ++ l.extraFieldsOnce))⟩]
          else []
        localOut := [⟨lvl, msg, fields ++ l.extraFields ++ l.extraFieldsOnce⟩] } := by
  by_cases hE : l.minLevel ≤ lvl <;>
    simp [LoggerWithCtx.leveled, LoggerWithCtx.logFields, Logger.log, Logger.logFields_fst,
      Logger.logFields_snd, ge_iff_le, hE]

/-! Theorems settling the claims. -/

/-- C1 (counterexample): the claim says span annotation depends only on the
annotate/error-status comparisons and not on the emit gate, so that a call
below emit-minimum but at annotate-minimum still annotates the span.  On a
logger with emit-minimum = Error and annotate-minimum = Warn, a Warn call with
an active recording span satisfies the annotate comparison yet leaves the
span's attributes untouched (and emits nothing): the annotation is nested
under the emit gate. -/
theorem c1_counterexample :
    warnLevel ≥ (Logger.new 0 [WithMinLevel errorLevel]).minAnnotateLevel ∧
    ¬ warnLevel ≥ (Logger.new 0 [WithMinLevel errorLevel]).minLevel ∧
    (LoggerWithCtx.leveled (Logger.new 0 [WithMinLevel errorLevel]) ⟨none, ""⟩
        (some ⟨true, [], none, []⟩) warnLevel "msg" [⟨"k", .strV "v"⟩]).ctx
      = some ⟨true, [], none, []⟩ ∧
    (LoggerWithCtx.leveled (Logger.new 0 [WithMinLevel errorLevel]) ⟨none, ""⟩
        (some ⟨true, [], none, []⟩) warnLevel "msg" [⟨"k", .strV "v"⟩]).emitted = [] := by
  decide

/-- C1 (amended): for every context-bound leveled call on a recording span,
the span's attributes are extended with the merged fields exactly when the
level passes both the emit-minimum and the annotate-minimum, and the span is
marked errored exactly when the level passes both the emit-minimum and the
error-status-minimum; a telemetry record is emitted exactly when the level
passes the emit-minimum.  Span interaction is thus gated by `shouldEmit` in
addition to the annotate/error-status comparisons. -/
theorem c1_amended (l : Logger) (env : RuntimeEnv) (attrs : List KeyValue)
    (st : Option String) (evs : List String) (lvl : Level) (msg : String)
    (fields : List Field) :
    (LoggerWithCtx.leveled l env (some ⟨true, attrs, st, evs⟩) lvl msg fields).ctx =
      some
        { recording := true
          attributes :=
            if l.minLevel ≤ lvl ∧ l.minAnnotateLevel ≤ lvl then
              attrs ++ (convertFields (l.logFields fields).1).map
                (fun kv => Attribute kv.key kv.value)
            else attrs
          status := if l.minLevel ≤ lvl ∧ l.errorStatusLevel ≤ lvl then some msg else st
          events := if l.minLevel ≤ lvl ∧ l.errorStatusLevel ≤ lvl then evs ++ [msg] else evs } ∧
    ((LoggerWithCtx.leveled l env (some ⟨true, attrs, st, evs⟩) lvl msg fields).emitted ≠ []
      ↔ l.minLevel ≤ lvl) := by
  by_cases hE : l.minLevel ≤ lvl <;> by_cases hA : l.minAnnotateLevel ≤ lvl <;>
    by_cases hS : l.errorStatusLevel ≤ lvl <;>
    simp [LoggerWithCtx.leveled, LoggerWithCtx.logFields, Logger.log, Logger.spanCorrelate,
      ge_iff_le, hE, hA, hS]

/-- C2 (counterexample): with one sticky field, one one-shot field and one
call-site field, the merged sequence handed to the local output is the
call-site field first, then the sticky field, then the one-shot field — not
the claimed sticky, one-shot, call-site order. -/
theorem c2_counterexample :
    (LoggerWithCtx.leveled
        { Logger.new 0 [] with
          extraFields := [⟨"sticky", .intV 0⟩], extraFieldsOnce := [⟨"once", .intV 1⟩] }
        ⟨none, ""⟩ none infoLevel "m" [⟨"call", .intV 2⟩]).localOut
      = [⟨infoLevel, "m", [⟨"call", .intV 2⟩, ⟨"sticky", .intV 0⟩, ⟨"once", .intV 1⟩]⟩] ∧
    (LoggerWithCtx.leveled
        { Logger.new 0 [] with
          extraFields := [⟨"sticky", .intV 0⟩], extraFieldsOnce := [⟨"once", .intV 1⟩] }
        ⟨none, ""⟩ none infoLevel "m" [⟨"call", .intV 2⟩]).localOut
      ≠ [⟨infoLevel, "m", [⟨"sticky", .intV 0⟩, ⟨"once", .intV 1⟩, ⟨"call", .intV 2⟩]⟩] := by
  decide

/-- C2 (amended): for every leveled, context-carrying call, the final merged
field sequence is exactly the call-site fields in call order, followed by the
sticky fields in accumulation order, followed by the one-shot fields in
accumulation order, with no field dropped; the local output receives exactly
this sequence, and the telemetry record's attribute list (when a record is
emitted) is its per-field conversion followed only by the enrichment
attributes. -/
theorem c2_amended (l : Logger) (env : RuntimeEnv) (ctx : Ctx) (lvl : Level) (msg : String)
    (fields : List Field) :
    (LoggerWithCtx.leveled l env ctx lvl msg fields).localOut
      = [⟨lvl, msg, fields ++ l.extraFields ++ l.extraFieldsOnce⟩] ∧
    (LoggerWithCtx.leveled l env ctx lvl msg fields).emitted
      = (if l.minLevel ≤ lvl then
          [⟨msg, convertLevel lvl,
            l.enrichKvs env (convertFields (fields ++ l.extraFields ++ l.extraFieldsOnce))⟩]
        else []) ∧
    l.enrichKvs env (convertFields (fields ++ l.extraFields ++ l.extraFieldsOnce))
      = convertFields (fields ++ l.extraFields ++ l.extraFieldsOnce) ++ l.enrichKvs env [] := by
  refine ⟨?_, ?_, Logger.enrichKvs_eq_append l env _⟩ <;>
    by_cases hE : l.minLevel ≤ lvl <;>
    simp [LoggerWithCtx.leveled, LoggerWithCtx.logFields, Logger.log, Logger.logFields_fst,
      ge_iff_le, hE]

/-- C3: the claim says a sugared key-value call on an odd-length argument list
whose last element is a string key never indexes out of bounds.  The pairing
loop of `SugaredLogger.logKVs` reads `args[i+1]` whenever `args[i]` is a
string, so a lone trailing string key at an emitted level is an
index-out-of-range access (modelled as `none`); the level gate's early return
is the only thing that avoids it below the emit minimum. -/
theorem c3_out_of_range :
    pairKVs [KVArg.strArg "orphan"] = none ∧
    SugaredLogger.logKVs (Logger.new 0 []) none errorLevel "msg"
      [KVArg.strArg "orphan"] = none ∧
    SugaredLogger.logKVs (Logger.new 0 []) none errorLevel "msg"
      [KVArg.strArg "k", KVArg.strArg "v", KVArg.strArg "orphan"] = none ∧
    SugaredLogger.logKVs (Logger.new 0 []) none debugLevel "msg"
      [KVArg.strArg "orphan"]
      = some { logger := Logger.new 0 [], ctx := none, emitted := [], localOut := [] } := by
  decide

/-- C4: after `With` arms one-shot fields on an instance, the very next
context-bound leveled emission merges exactly those fields after the call-site
and sticky fields, the emission clears the one-shot list, and the emission
after that merges only call-site and sticky fields.  Instantiating `fs` with
`withErrorFields err` gives the `WithError` case, since `WithError` is `With`
of the error fields. -/
theorem c4_one_shot_consumed (l : Logger) (env1 env2 : RuntimeEnv) (ctx1 ctx2 : Ctx)
    (lvl1 lvl2 : Level) (m1 m2 : String) (fs cs1 cs2 : List Field) :
    (LoggerWithCtx.leveled (l.With fs) env1 ctx1 lvl1 m1 cs1).localOut
      = [⟨lvl1, m1, cs1 ++ l.extraFields ++ (l.extraFieldsOnce ++ fs)⟩] ∧
    (LoggerWithCtx.leveled (l.With fs) env1 ctx1 lvl1 m1 cs1).logger.extraFieldsOnce = [] ∧
    (LoggerWithCtx.leveled
        (LoggerWithCtx.leveled (l.With fs) env1 ctx1 lvl1 m1 cs1).logger
        env2 ctx2 lvl2 m2 cs2).localOut
      = [⟨lvl2, m2, cs2 ++ l.extraFields⟩] := by
  simp [LoggerWithCtx.leveled_unfold, Logger.With]

/-- C5: the constructor defaults are emit-minimum = Info, annotate-minimum =
Warn, error-status-minimum = Error; on the default logger a record is emitted
exactly when the level is at least Info, and a Warn call with an active
recording span extends the span's attributes with the merged fields, leaves
the span's status and error events unchanged, and emits one telemetry
record. -/
theorem c5_default_gates (env : RuntimeEnv) (attrs : List KeyValue) (st : Option String)
    (evs : List String) (msg : String) (fields : List Field) :
    (Logger.new 0 []).minLevel = infoLevel ∧
    (Logger.new 0 []).minAnnotateLevel = warnLevel ∧
    (Logger.new 0 []).errorStatusLevel = errorLevel ∧
    (∀ lvl : Level,
      (LoggerWithCtx.leveled (Logger.new 0 []) env (some ⟨true, attrs, st, evs⟩)
          lvl msg fields).emitted ≠ [] ↔ infoLevel ≤ lvl) ∧
    (LoggerWithCtx.leveled (Logger.new 0 []) env (some ⟨true, attrs, st, evs⟩)
        warnLevel msg fields).ctx
      = some ⟨true, attrs ++ (convertFields fields).map (fun kv => Attribute kv.key kv.value),
          st, evs⟩ ∧
    (LoggerWithCtx.leveled (Logger.new 0 []) env (some ⟨true, attrs, st, evs⟩)
        warnLevel msg fields).emitted
      = [⟨msg, convertLevel warnLevel, (Logger.new 0 []).enrichKvs env (convertFields fields)⟩] := by
  refine ⟨by decide, by decide, by decide, fun lvl => ?_, ?_, ?_⟩
  · by_cases hE : infoLevel ≤ lvl <;>
      simp [LoggerWithCtx.leveled_unfold, Logger.new, infoLevel, hE]
  · simp [LoggerWithCtx.leveled_unfold, Logger.spanCorrelate, Logger.new,
      infoLevel, warnLevel, errorLevel]
  · simp [LoggerWithCtx.leveled_unfold, Logger.new, infoLevel, warnLevel]

/-- C6: a context-bound leveled call below the emit minimum emits no
telemetry record and leaves the span state untouched, while the local
structured write still happens with the merged fields. -/
theorem c6_below_emit (l : Logger) (env : RuntimeEnv) (ctx : Ctx) (lvl : Level)
    (msg : String) (fields : List Field) (h : lvl < l.minLevel) :
    (LoggerWithCtx.leveled l env ctx lvl msg fields).emitted = [] ∧
    (LoggerWithCtx.leveled l env ctx lvl msg fields).ctx = ctx ∧
    (LoggerWithCtx.leveled l env ctx lvl msg fields).localOut
      = [⟨lvl, msg, fields ++ l.extraFields ++ l.extraFieldsOnce⟩] := by
  have hE : ¬ l.minLevel ≤ lvl := not_le.mpr h
  simp [LoggerWithCtx.leveled_unfold, hE]

/-- Witness for C6: a Debug call on the default logger with an active
recording span is below the emit minimum, and the conclusion holds there. -/
theorem c6_below_emit_witness :
    debugLevel < (Logger.new 0 []).minLevel ∧
    ((LoggerWithCtx.leveled (Logger.new 0 []) ⟨none, ""⟩ (some ⟨true, [], none, []⟩)
        debugLevel "m" [⟨"k", .strV "v"⟩]).emitted = [] ∧
     (LoggerWithCtx.leveled (Logger.new 0 []) ⟨none, ""⟩ (some ⟨true, [], none, []⟩)
        debugLevel "m" [⟨"k", .strV "v"⟩]).ctx = some ⟨true, [], none, []⟩ ∧
     (LoggerWithCtx.leveled (Logger.new 0 []) ⟨none, ""⟩ (some ⟨true, [], none, []⟩)
        debugLevel "m" [⟨"k", .strV "v"⟩]).localOut
       = [⟨debugLevel, "m",
           [⟨"k", .strV "v"⟩] ++ (Logger.new 0 []).extraFields
             ++ (Logger.new 0 []).extraFieldsOnce⟩]) :=
  ⟨by decide,
   c6_below_emit (Logger.new 0 []) ⟨none, ""⟩ (some ⟨true, [], none, []⟩)
     debugLevel "m" [⟨"k", .strV "v"⟩] (by decide)⟩

/-- C7: the claim says the direct `*Context` methods run the full pipeline.
At an input where the context-bound view's leveled call consumes the armed
one-shot field, changes the span and emits a record, the `*Context` method
leaves the logger (one-shot list included) and span untouched, emits nothing,
and writes only the unmerged call-site fields locally: it only forwards to
the local zap output. -/
theorem c7_context_bypass :
    Logger.leveledContext
        { Logger.new 0 [] with extraFieldsOnce := [⟨"error_advice", .strListV ["a"]⟩] }
        (some ⟨true, [], none, []⟩) errorLevel "boom" [⟨"k", .strV "v"⟩]
      = { logger :=
            { Logger.new 0 [] with extraFieldsOnce := [⟨"error_advice", .strListV ["a"]⟩] }
          ctx := some ⟨true, [], none, []⟩
          emitted := []
          localOut := [⟨errorLevel, "boom", [⟨"k", .strV "v"⟩]⟩] } ∧
    (LoggerWithCtx.leveled
        { Logger.new 0 [] with extraFieldsOnce := [⟨"error_advice", .strListV ["a"]⟩] }
        ⟨none, ""⟩ (some ⟨true, [], none, []⟩) errorLevel "boom"
        [⟨"k", .strV "v"⟩]).emitted ≠ [] ∧
    (LoggerWithCtx.leveled
        { Logger.new 0 [] with extraFieldsOnce := [⟨"error_advice", .strListV ["a"]⟩] }
        ⟨none, ""⟩ (some ⟨true, [], none, []⟩) errorLevel "boom"
        [⟨"k", .strV "v"⟩]).ctx ≠ some ⟨true, [], none, []⟩ ∧
    (LoggerWithCtx.leveled
        { Logger.new 0 [] with extraFieldsOnce := [⟨"error_advice", .strListV ["a"]⟩] }
        ⟨none, ""⟩ (some ⟨true, [], none, []⟩) errorLevel "boom"
        [⟨"k", .strV "v"⟩]).logger.extraFieldsOnce = [] := by
  decide

/-- C8: `WithError` walks the unwrap chain outermost to innermost.  On the
three-level wrapped error with advice at levels 1 and 3, the collection pass
gathers exactly the three causes in order and the two advice lists
outer-to-inner, and the produced fields are the original error, then
`error_advice` with the flattened advice, then `error_causes` with all causes
but the first.  In general the original error is always the first field,
`error_advice` is attached exactly when at least one advice string was
collected, and `error_causes` exactly when more than one cause was found. -/
theorem c8_error_chain (m1 m2 m3 h1 : String) (t1 a3 : List String) :
    (GoError.wrap true m1 (h1 :: t1)
        (GoError.wrap true m2 [] (GoError.base true m3 a3))).collect
      = ([GoError.wrap true m1 (h1 :: t1) (GoError.wrap true m2 [] (GoError.base true m3 a3)),
          GoError.wrap true m2 [] (GoError.base true m3 a3),
          GoError.base true m3 a3],
         (h1 :: t1) ++ a3) ∧
    withErrorFields
        (GoError.wrap true m1 (h1 :: t1)
          (GoError.wrap true m2 [] (GoError.base true m3 a3)))
      = [zapError
           (GoError.wrap true m1 (h1 :: t1)
             (GoError.wrap true m2 [] (GoError.base true m3 a3))),
         zapStrings "error_advice" ((h1 :: t1) ++ a3),
         zapErrors "error_causes"
           [GoError.wrap true m2 [] (GoError.base true m3 a3), GoError.base true m3 a3]] ∧
    (∀ e : GoError, (withErrorFields e).head? = some (zapError e)) ∧
    (∀ e : GoError,
      ((withErrorFields e).any (fun f => f.key == "error_advice")) = true
        ↔ (e.collect).2 ≠ []) ∧
    (∀ e : GoError,
      ((withErrorFields e).any (fun f => f.key == "error_causes")) = true
        ↔ 1 < (e.collect).1.length) := by
  refine ⟨?_, ?_, fun e => ?_, fun e => ?_, fun e => ?_⟩
  · simp [GoError.collect, GoError.asHumaneAdvice]
  · simp [withErrorFields, GoError.collect, GoError.asHumaneAdvice, zapError, zapStrings,
      zapErrors]
  · simp only [withErrorFields]
    split_ifs <;> simp
  · simp only [withErrorFields]
    split_ifs with hA hC hC <;>
      simp_all [zapError, zapStrings, zapErrors, List.length_pos]
  · simp only [withErrorFields]
    split_ifs with hA hC hC <;>
      simp_all [zapError, zapStrings, zapErrors]

/-- C9: when the context carries no recording span — either a non-recording
span or no span at all — a context-bound leveled call leaves the span state
exactly as it was, and the rest of the pipeline is unchanged: the same
telemetry record is emitted exactly when the level passes the emit minimum,
and the local write with the merged fields still happens.  The embedding is a
total function, so the skip is silent: no error condition exists on this
path. -/
theorem c9_no_recording_span (l : Logger) (env : RuntimeEnv) (attrs : List KeyValue)
    (st : Option String) (evs : List String) (lvl : Level) (msg : String)
    (fields : List Field) :
    (LoggerWithCtx.leveled l env (some ⟨false, attrs, st, evs⟩) lvl msg fields).ctx
      = some ⟨false, attrs, st, evs⟩ ∧
    (LoggerWithCtx.leveled l env none lvl msg fields).ctx = none ∧
    (LoggerWithCtx.leveled l env (some ⟨false, attrs, st, evs⟩) lvl msg fields).emitted
      = (LoggerWithCtx.leveled l env none lvl msg fields).emitted ∧
    (LoggerWithCtx.leveled l env (some ⟨false, attrs, st, evs⟩) lvl msg fields).emitted
      = (if l.minLevel ≤ lvl then
          [⟨msg, convertLevel lvl,
            l.enrichKvs env (convertFields (fields ++ l.extraFields ++ l.extraFieldsOnce))⟩]
        else []) ∧
    (LoggerWithCtx.leveled l env (some ⟨false, attrs, st, evs⟩) lvl msg fields).localOut
      = [⟨lvl, msg, fields ++ l.extraFields ++ l.extraFieldsOnce⟩] := by
  by_cases hE : l.minLevel ≤ lvl <;>
    simp [LoggerWithCtx.leveled_unfold, Logger.spanCorrelate, hE]

/-! List lemmas for the heap model: the cell at index `pre.length` of
`pre ++ l :: post` is `l`, and setting it replaces exactly that cell. -/

theorem get_append_length (pre post : List Logger) (x : Logger) :
    (pre ++ x :: post).get? pre.length = some x := by
  induction pre with
  | nil => rfl
  | cons a as ih => simpa using ih

theorem getElem_append_length (pre post : List Logger) (x : Logger)
    (h : pre.length < (pre ++ x :: post).length) :
    (pre ++ x :: post)[pre.length] = x := by
  induction pre with
  | nil => rfl
  | cons a as ih =>
    simp only [List.cons_append, List.length_cons, List.getElem_cons_succ]
    exact ih (by simp)

theorem set_append_length (pre post : List Logger) (x y : Logger) :
    (pre ++ x :: post).set pre.length y = pre ++ y :: post := by
  induction pre with
  | nil => rfl
  | cons a as ih => simp [ih]

/-- C10: `With` (and `WithError`, which delegates to it) updates the shared
logger cell in place and returns the very same reference: on a heap with the
logger at index `pre.length`, the returned index is unchanged, the cell now
holds the logger with the fields appended to its one-shot list, every other
cell is untouched, and every component of the logger other than the one-shot
list — the sticky fields, the three thresholds, the caller and stack-trace
flags, the caller depth, and the embedded handles — is preserved. -/
theorem c10_with_in_place (pre post : List Logger) (l : Logger) (fs : List Field)
    (err : GoError) :
    heapWith (pre ++ l :: post) pre.length fs
      = (pre ++ l.With fs :: post, pre.length) ∧
    heapWithError (pre ++ l :: post) pre.length err
      = (pre ++ l.With (withErrorFields err) :: post, pre.length) ∧
    (l.With fs).extraFieldsOnce = l.extraFieldsOnce ++ fs ∧
    (l.WithError err).extraFieldsOnce = l.extraFieldsOnce ++ withErrorFields err ∧
    (l.With fs).extraFields = l.extraFields ∧
    (l.With fs).minLevel = l.minLevel ∧
    (l.With fs).errorStatusLevel = l.errorStatusLevel ∧
    (l.With fs).minAnnotateLevel = l.minAnnotateLevel ∧
    (l.With fs).caller = l.caller ∧
    (l.With fs).stackTrace = l.stackTrace ∧
    (l.With fs).callerDepth = l.callerDepth ∧
    (l.With fs).zapHandle = l.zapHandle ∧
    (l.With fs).skipCallerHandle = l.skipCallerHandle ∧
    (l.With fs).otelLoggerHandle = l.otelLoggerHandle := by
  refine ⟨?_, ?_, rfl, rfl, rfl, rfl, rfl, rfl, rfl, rfl, rfl, rfl, rfl, rfl⟩ <;>
    simp [heapWith, heapWithError, get_append_length, getElem_append_length,
      set_append_length]

end Otelzap
